import Mathlib

/-!
Shallow embedding of the game-balancing backend (`src/backend/server.py`).

Python `dict[str, float]` values are modelled as association lists
`List (String × ℚ)` with unique keys maintained by `dictInsert` (Python dict
assignment: overwrite in place if the key exists, append otherwise).  Python
floats are modelled as rationals; Python's `round(x, 1)` (round half to even
at one decimal) is modelled by `round1`.  Python `int` is `ℤ`.  The database
read-modify-write of each HTTP handler is modelled as a pure function from
the loaded `Project` to the stored `Project` (plus the returned payload);
the freshly generated `uuid4` id is passed in as a parameter.  Handlers that
can answer 404 return `Option`.
-/

namespace GameBalance

/-- A Python `dict[str, float]`: insertion-ordered association list. -/
abbrev Dict := List (String × ℚ)

/-- Python `d.get(k, default)`. -/
def dictGet (d : Dict) (k : String) (default : ℚ) : ℚ :=
  match d.find? (fun p => p.1 == k) with
  | some p => p.2
  | none => default

/-- Python `d[k] = v`: overwrite the value in place when the key is present,
append the new pair otherwise. -/
def dictInsert (d : Dict) (k : String) (v : ℚ) : Dict :=
  if d.any (fun p => p.1 == k) then
    d.map (fun p => if p.1 == k then (k, v) else p)
  else
    d ++ [(k, v)]

/-- Python `k in d`. -/
def dictHasKey (d : Dict) (k : String) : Bool :=
  d.any (fun p => p.1 == k)

/-- Python `d[k]` as an `Option` (also `d.get(k)`). -/
def dictFind (d : Dict) (k : String) : Option ℚ :=
  (d.find? (fun p => p.1 == k)).map Prod.snd

/-- Round a rational to the nearest integer, ties to even
(the rounding mode of Python's builtin `round`). -/
def roundHalfEven (q : ℚ) : ℤ :=
  let f : ℤ := q.floor
  if q - f < 1/2 then f
  else if q - f > 1/2 then f + 1
  else if f % 2 = 0 then f else f + 1

/-- Python `round(q, 1)`: round to one decimal place, ties to even. -/
def round1 (q : ℚ) : ℚ :=
  (roundHalfEven (q * 10) : ℚ) / 10

/-- `class AttributeModifier(BaseModel)`.  The source field `attribute` is a
Lean keyword, so it is named `attr` here. -/
structure AttributeModifier where
  attr : String
  multiplier : ℚ
  base_bonus : ℚ
deriving DecidableEq, Repr

/-- `class StatDefinition(BaseModel)` (also covers `StatDefinitionCreate`,
which has exactly the same fields). -/
structure StatDefinition where
  name : String
  base_value : ℚ
  modifiers : List AttributeModifier
  per_level_bonus : ℚ
deriving DecidableEq, Repr

/-- `class Character(BaseModel)`. -/
structure Character where
  id : String
  name : String
  level : ℤ
  base_attributes : Dict
  calculated_stats : Dict
  character_class : Option String
deriving DecidableEq, Repr

/-- `class Enemy(BaseModel)`. -/
structure Enemy where
  id : String
  name : String
  enemy_type : String
  level : ℤ
  base_stats : Dict
  calculated_stats : Dict
deriving DecidableEq, Repr

/-- `class Project(BaseModel)` (the `created_at` timestamp is irrelevant to
every operation and is omitted). -/
structure Project where
  id : String
  name : String
  description : String
  attributes : List String
  stat_definitions : List StatDefinition
  characters : List Character
  enemies : List Enemy
  features_enabled : List (String × Bool)
deriving DecidableEq, Repr

/-- `class CharacterCreate(BaseModel)`. -/
structure CharacterCreate where
  name : String
  level : ℤ
  base_attributes : Dict
  character_class : Option String
deriving DecidableEq, Repr

/-- `class EnemyCreate(BaseModel)`. -/
structure EnemyCreate where
  name : String
  enemy_type : String
  level : ℤ
  base_stats : Dict
deriving DecidableEq, Repr

/-- The body of the `for stat_def in stat_definitions` loop of
`calculate_character_stats`: start from `base_value`, add
`attribute_value * multiplier + base_bonus` for each modifier
(missing attributes read as `0` via `dict.get`), then add
`(level - 1) * per_level_bonus`. -/
def statTotal (character : Character) (stat_def : StatDefinition) : ℚ :=
  let total := stat_def.modifiers.foldl
    (fun total modifier =>
      total + (dictGet character.base_attributes modifier.attr 0 * modifier.multiplier
        + modifier.base_bonus))
    stat_def.base_value
  total + (character.level - 1) * stat_def.per_level_bonus

/-- `calculate_character_stats` (server.py lines 96-113): builds a fresh dict
`calculated`, assigning `calculated[stat_def.name] = round(total, 1)` for each
definition in list order. -/
def calculate_character_stats (character : Character)
    (stat_definitions : List StatDefinition) : Dict :=
  stat_definitions.foldl
    (fun calculated stat_def =>
      dictInsert calculated stat_def.name (round1 (statTotal character stat_def)))
    []

/-- The four hard-coded `default_stats` of `create_project`. -/
def default_stats : List StatDefinition :=
  [ { name := "health", base_value := 100,
      modifiers := [{ attr := "constitution", multiplier := 5, base_bonus := 0 }],
      per_level_bonus := 10 },
    { name := "mana", base_value := 50,
      modifiers := [{ attr := "intelligence", multiplier := 3, base_bonus := 0 }],
      per_level_bonus := 5 },
    { name := "power", base_value := 20,
      modifiers := [{ attr := "strength", multiplier := 2, base_bonus := 0 }],
      per_level_bonus := 2 },
    { name := "initiative", base_value := 10,
      modifiers := [{ attr := "dexterity", multiplier := 3/2, base_bonus := 0 }],
      per_level_bonus := 1 } ]

/-- `POST /api/projects` (`create_project`): a new project seeded with the
four default stat definitions and the model defaults of `Project`. -/
def create_project (newId : String) (name description : String) : Project :=
  { id := newId, name := name, description := description,
    attributes := ["strength", "dexterity", "constitution", "intelligence"],
    stat_definitions := default_stats,
    characters := [], enemies := [],
    features_enabled :=
      [("attributes", true), ("stats", true), ("perks", true), ("classes", true)] }

/-- `POST /api/projects/{id}/characters` (`create_character`): build the
character straight from the request body (the requested level is stored
unchanged), compute its initial stats, append it to the project.  Returns the
stored project and the response body (the new character). -/
def create_character (project : Project) (character_data : CharacterCreate)
    (newId : String) : Project × Character :=
  let character0 : Character :=
    { id := newId, name := character_data.name, level := character_data.level,
      base_attributes := character_data.base_attributes, calculated_stats := [],
      character_class := character_data.character_class }
  let character :=
    { character0 with
      calculated_stats := calculate_character_stats character0 project.stat_definitions }
  ({ project with characters := project.characters ++ [character] }, character)

/-- The `for character in project_obj.characters` search of
`update_character_level`: update the first character whose id matches
(`level = max(1, level)`, then recalculate), `none` when no id matches. -/
def updateCharacterInList (characters : List Character) (character_id : String)
    (level : ℤ) (stat_definitions : List StatDefinition) : Option (List Character) :=
  match characters with
  | [] => none
  | character :: rest =>
    if character.id == character_id then
      let character1 := { character with level := max 1 level }
      let character2 :=
        { character1 with
          calculated_stats := calculate_character_stats character1 stat_definitions }
      some (character2 :: rest)
    else
      (updateCharacterInList rest character_id level stat_definitions).map
        (fun updated => character :: updated)

/-- The JSON body `{"message": ..., "level": level}` returned by the two
level-update handlers; `level` is the raw query parameter. -/
structure LevelUpdateResponse where
  message : String
  level : ℤ
deriving DecidableEq, Repr

/-- `PUT /api/projects/{id}/characters/{cid}/level` (`update_character_level`):
`none` models the 404 answers (project handling is outside this function;
character not found is the `none` of the list search). -/
def update_character_level (project : Project) (character_id : String)
    (level : ℤ) : Option (Project × LevelUpdateResponse) :=
  (updateCharacterInList project.characters character_id level
      project.stat_definitions).map
    (fun updated =>
      ({ project with characters := updated },
       { message := "Character level updated", level := level }))

/-- `POST /api/projects/{id}/enemies` (`create_enemy`): the enemy is built
straight from the request body (the requested level is stored unchanged) and
`calculated_stats = base_stats.copy()`. -/
def create_enemy (project : Project) (enemy_data : EnemyCreate)
    (newId : String) : Project × Enemy :=
  let enemy0 : Enemy :=
    { id := newId, name := enemy_data.name, enemy_type := enemy_data.enemy_type,
      level := enemy_data.level, base_stats := enemy_data.base_stats,
      calculated_stats := [] }
  let enemy := { enemy0 with calculated_stats := enemy0.base_stats }
  ({ project with enemies := project.enemies ++ [enemy] }, enemy)

/-- The `for enemy in project_obj.enemies` search of `update_enemy_level`:
update the first enemy whose id matches (`level = max(1, level)`, then
`calculated_stats = {stat: round(value * (1 + (level-1)*0.1), 1) ...}`),
`none` when no id matches. -/
def updateEnemyInList (enemies : List Enemy) (enemy_id : String)
    (level : ℤ) : Option (List Enemy) :=
  match enemies with
  | [] => none
  | enemy :: rest =>
    if enemy.id == enemy_id then
      let newLevel := max 1 level
      let level_multiplier : ℚ := 1 + ((newLevel : ℚ) - 1) * (1/10)
      let enemy1 :=
        { enemy with
          level := newLevel,
          calculated_stats :=
            enemy.base_stats.map (fun p => (p.1, round1 (p.2 * level_multiplier))) }
      some (enemy1 :: rest)
    else
      (updateEnemyInList rest enemy_id level).map (fun updated => enemy :: updated)

/-- `PUT /api/projects/{id}/enemies/{eid}/level` (`update_enemy_level`). -/
def update_enemy_level (project : Project) (enemy_id : String)
    (level : ℤ) : Option (Project × LevelUpdateResponse) :=
  (updateEnemyInList project.enemies enemy_id level).map
    (fun updated =>
      ({ project with enemies := updated },
       { message := "Enemy level updated", level := level }))

/-- `POST /api/projects/{id}/stats` (`create_stat_definition`): append the new
definition, then recalculate every character's stats against the extended
list. -/
def create_stat_definition (project : Project) (stat_def : StatDefinition) : Project :=
  let stat_definitions := project.stat_definitions ++ [stat_def]
  { project with
    stat_definitions := stat_definitions,
    characters := project.characters.map
      (fun character =>
        { character with
          calculated_stats := calculate_character_stats character stat_definitions }) }

/-- The `for i, stat_def in enumerate(...)` search of `update_stat_definition`:
replace the first definition whose name matches, `none` when no name
matches. -/
def replaceStatInList (stat_definitions : List StatDefinition) (stat_name : String)
    (stat_def : StatDefinition) : Option (List StatDefinition) :=
  match stat_definitions with
  | [] => none
  | d :: rest =>
    if d.name == stat_name then
      some (stat_def :: rest)
    else
      (replaceStatInList rest stat_name stat_def).map (fun updated => d :: updated)

/-- `PUT /api/projects/{id}/stats/{name}` (`update_stat_definition`): replace
the matching definition, then recalculate every character's stats. -/
def update_stat_definition (project : Project) (stat_name : String)
    (stat_def : StatDefinition) : Option Project :=
  (replaceStatInList project.stat_definitions stat_name stat_def).map
    (fun stat_definitions =>
      { project with
        stat_definitions := stat_definitions,
        characters := project.characters.map
          (fun character =>
            { character with
              calculated_stats :=
                calculate_character_stats character stat_definitions }) })

/-- Modelled from the spec (section 8, first testable property): the character
stat formula as the specification words it, `base_value +
Σ(attr_value(modifier.attribute, default 0) * modifier.multiplier +
modifier.base_bonus) + (level-1) * per_level_bonus`, rounded to 1 decimal. -/
def spec_stat_value (character : Character) (stat_def : StatDefinition) : ℚ :=
  round1 (stat_def.base_value
    + (stat_def.modifiers.map
        (fun modifier =>
          dictGet character.base_attributes modifier.attr 0 * modifier.multiplier
            + modifier.base_bonus)).sum
    + (character.level - 1) * stat_def.per_level_bonus)

/-- Modelled from the spec: the whole output mapping the spec describes, each
stat definition mapped in list order to its `spec_stat_value`, keyed by the
definition's name. -/
def spec_stats_map (character : Character) (stat_definitions : List StatDefinition) : Dict :=
  stat_definitions.foldl
    (fun calculated stat_def =>
      dictInsert calculated stat_def.name (spec_stat_value character stat_def))
    []

/-! ### Concrete sample inputs used by the witness theorems below -/

/-- Witness character: level 2, one attribute, a stale previous calculation. -/
def wChar : Character :=
  { id := "c", name := "n", level := 2,
    base_attributes := [("strength", 3)],
    calculated_stats := [("stale", 1)], character_class := none }

/-- Witness stat definition, first of two sharing the name `alpha`. -/
def wAlpha1 : StatDefinition :=
  { name := "alpha", base_value := 1, modifiers := [], per_level_bonus := 0 }

/-- Witness stat definition, second of two sharing the name `alpha`. -/
def wAlpha2 : StatDefinition :=
  { name := "alpha", base_value := 2, modifiers := [], per_level_bonus := 0 }

/-- Witness stat definition with the distinct name `beta`. -/
def wBeta : StatDefinition :=
  { name := "beta", base_value := 3, modifiers := [], per_level_bonus := 0 }

/-- Witness enemy, freshly created at level 1 (calculated = base). -/
def wEnemy : Enemy :=
  { id := "e1", name := "Orc", enemy_type := "Humanoid", level := 1,
    base_stats := [("health", 80), ("power", 25), ("defense", 15)],
    calculated_stats := [("health", 80), ("power", 25), ("defense", 15)] }

/-- Witness project holding only `wEnemy`. -/
def wProjE : Project :=
  { id := "p", name := "P", description := "",
    attributes := ["strength", "dexterity", "constitution", "intelligence"],
    stat_definitions := default_stats, characters := [], enemies := [wEnemy],
    features_enabled :=
      [("attributes", true), ("stats", true), ("perks", true), ("classes", true)] }

/-- `wEnemy` after its level is updated to 3 (multiplier 1.2). -/
def wEnemy3 : Enemy :=
  { wEnemy with
    level := 3,
    calculated_stats := [("health", 96), ("power", 30), ("defense", 18)] }

/-- `wProjE` after the level update of its enemy to 3. -/
def wProjE3 : Project :=
  { wProjE with enemies := [wEnemy3] }

/-- The spec's end-to-end sample attributes. -/
def wAttrs : Dict :=
  [("strength", 15), ("dexterity", 12), ("constitution", 14), ("intelligence", 10)]

/-- Creation request for the spec's end-to-end sample character. -/
def wHeroCreate : CharacterCreate :=
  { name := "Hero", level := 1, base_attributes := wAttrs,
    character_class := some "Warrior" }

/-- Creation request asking for level 0 (below the documented minimum). -/
def wBadCharCreate : CharacterCreate :=
  { name := "Zed", level := 0, base_attributes := [("strength", 1)],
    character_class := none }

/-- Enemy creation request asking for level -3. -/
def wBadEnemyCreate : EnemyCreate :=
  { name := "Imp", enemy_type := "demon", level := -3,
    base_stats := [("health", 10)] }

/-- Character at level 5 inside a project with no stat definitions. -/
def wCharL5 : Character :=
  { id := "c1", name := "Z", level := 5, base_attributes := [("strength", 3)],
    calculated_stats := [], character_class := none }

/-- Project holding only `wCharL5` and no stat definitions. -/
def wProjC : Project :=
  { id := "p2", name := "P2", description := "",
    attributes := ["strength", "dexterity", "constitution", "intelligence"],
    stat_definitions := [], characters := [wCharL5], enemies := [],
    features_enabled :=
      [("attributes", true), ("stats", true), ("perks", true), ("classes", true)] }

/-- `wProjC` after a clamped level update of its character to level 1. -/
def wProjC1 : Project :=
  { wProjC with characters := [{ wCharL5 with level := 1 }] }

/-- Enemy whose base stat has two decimal places (3.14). -/
def wEnemyPi : Enemy :=
  { id := "e2", name := "Pi", enemy_type := "x", level := 1,
    base_stats := [("health", 157/50)],
    calculated_stats := [("health", 157/50)] }

/-- Project holding only `wEnemyPi`. -/
def wProjPi : Project :=
  { wProjE with enemies := [wEnemyPi] }

/-- `wEnemyPi` after a level update to 1: the base stat got rounded. -/
def wEnemyPiRounded : Enemy :=
  { wEnemyPi with
    level := 1,
    calculated_stats := [("health", 31/10)] }

/-- `wProjPi` after the level update of its enemy to 1. -/
def wProjPiRounded : Project :=
  { wProjPi with enemies := [wEnemyPiRounded] }

/-- Modifier on the attribute `luck`, which the witness characters lack,
with a nonzero flat bonus. -/
def wLuckMod : AttributeModifier :=
  { attr := "luck", multiplier := 2, base_bonus := 5 }

/-- Stat definition whose only modifier is `wLuckMod`. -/
def wSdLuck : StatDefinition :=
  { name := "crit", base_value := 0, modifiers := [wLuckMod], per_level_bonus := 0 }

/-- The same stat definition with no modifiers at all. -/
def wSdNoMod : StatDefinition :=
  { name := "crit", base_value := 0, modifiers := [], per_level_bonus := 0 }

/-- Project with one stat definition (`alpha`) and one character, used for
the stat-definition edit witness. -/
def wProjW : Project :=
  { id := "p3", name := "P3", description := "",
    attributes := ["strength", "dexterity", "constitution", "intelligence"],
    stat_definitions := [wAlpha1], characters := [wChar], enemies := [],
    features_enabled :=
      [("attributes", true), ("stats", true), ("perks", true), ("classes", true)] }

/-- `wChar` recalculated against the replaced definition `wAlpha2`. -/
def wChAlpha : Character :=
  { wChar with calculated_stats := [("alpha", 2)] }

/-- `wProjW` after `alpha` is replaced by `wAlpha2`. -/
def wProjWUpdated : Project :=
  { wProjW with stat_definitions := [wAlpha2], characters := [wChAlpha] }

example :
    calculate_character_stats
      { id := "c", name := "n", level := 5,
        base_attributes := [("strength", 15), ("dexterity", 12),
          ("constitution", 14), ("intelligence", 10)],
        calculated_stats := [], character_class := none }
      default_stats
    = [("health", 210), ("mana", 100), ("power", 58), ("initiative", 32)] := by
  with_unfolding_all decide

/-! ### Association-list (Python dict) lemmas -/

/-- The keys of a dict, in insertion order. -/
def keysOf (d : Dict) : List String := d.map Prod.fst

theorem dictHasKey_iff_mem (d : Dict) (k : String) :
    dictHasKey d k = true ↔ k ∈ keysOf d := by
  simp only [dictHasKey, List.any_eq_true, beq_iff_eq, keysOf, List.mem_map]

theorem find_map_update_self (d : Dict) (k : String) (v : ℚ)
    (h : d.any (fun p => p.1 == k) = true) :
    (d.map (fun p => if p.1 == k then (k, v) else p)).find? (fun p => p.1 == k)
      = some (k, v) := by
  induction d with
  | nil => simp at h
  | cons p rest ih =>
    rw [List.map_cons]
    cases hp : (p.1 == k) with
    | true =>
      simp
    | false =>
      simp only [List.any_cons, Bool.or_eq_true] at h
      have h' := h.resolve_left (by simp [hp])
      rw [if_neg (by simp), List.find?_cons]
      simp only [hp]
      exact ih h'

theorem find_map_update_ne (d : Dict) (k k' : String) (v : ℚ) (h : k' ≠ k) :
    (d.map (fun p => if p.1 == k then (k, v) else p)).find? (fun p => p.1 == k')
      = d.find? (fun p => p.1 == k') := by
  induction d with
  | nil => simp
  | cons p rest ih =>
    rw [List.map_cons]
    cases hp : (p.1 == k) with
    | true =>
      have hk : p.1 = k := by simpa using hp
      have h1 : ((k : String) == k') = false := by
        simpa using fun e => h e.symm
      have h2 : (p.1 == k') = false := by
        rw [hk]; exact h1
      rw [if_pos rfl, List.find?_cons, List.find?_cons]
      simp only [h1, h2]
      exact ih
    | false =>
      rw [if_neg (by simp), List.find?_cons, List.find?_cons]
      cases hp' : (p.1 == k') with
      | true => simp
      | false => simp only [hp']; exact ih

theorem find_none_of_not_hasKey (d : Dict) (k : String)
    (h : ¬ d.any (fun p => p.1 == k) = true) :
    d.find? (fun p => p.1 == k) = none := by
  rw [List.find?_eq_none]
  intro p hp hpk
  exact h (List.any_of_mem hp hpk)

theorem dictFind_insert_self (d : Dict) (k : String) (v : ℚ) :
    dictFind (dictInsert d k v) k = some v := by
  unfold dictInsert dictFind
  by_cases h : d.any (fun p => p.1 == k) = true
  · rw [if_pos h, find_map_update_self d k v h]
    rfl
  · rw [if_neg h, List.find?_append, find_none_of_not_hasKey d k h]
    simp

theorem dictFind_insert_ne (d : Dict) (k k' : String) (v : ℚ) (h : k' ≠ k) :
    dictFind (dictInsert d k v) k' = dictFind d k' := by
  unfold dictInsert dictFind
  by_cases hany : d.any (fun p => p.1 == k) = true
  · rw [if_pos hany, find_map_update_ne d k k' v h]
  · rw [if_neg hany, List.find?_append]
    have hone : (([(k, v)] : Dict).find? (fun p => p.1 == k')) = none := by
      simpa using fun e => h e.symm
    rw [hone]
    cases d.find? (fun p => p.1 == k') <;> simp

theorem keysOf_insert (d : Dict) (k : String) (v : ℚ) :
    keysOf (dictInsert d k v)
      = if dictHasKey d k then keysOf d else keysOf d ++ [k] := by
  unfold dictInsert dictHasKey keysOf
  by_cases h : d.any (fun p => p.1 == k) = true
  · rw [if_pos h, if_pos h, List.map_map]
    apply List.map_congr_left
    intro p _
    by_cases hp : (p.1 == k) = true
    · have he : p.1 = k := by simpa using hp
      simp only [Function.comp_apply, if_pos hp]
      exact he.symm
    · simp only [Function.comp_apply, if_neg hp]
  · rw [if_neg h, if_neg h]
    simp

theorem keysOf_insert_nodup (d : Dict) (k : String) (v : ℚ)
    (h : (keysOf d).Nodup) : (keysOf (dictInsert d k v)).Nodup := by
  rw [keysOf_insert]
  by_cases hk : dictHasKey d k = true
  · simpa [hk] using h
  · have hmem : k ∉ keysOf d := fun hm => hk ((dictHasKey_iff_mem d k).mpr hm)
    rw [if_neg hk]
    simpa [List.nodup_append] using ⟨h, hmem⟩

theorem dictHasKey_insert (d : Dict) (k k' : String) (v : ℚ) :
    dictHasKey (dictInsert d k v) k' = (dictHasKey d k' || (k' == k)) := by
  rw [Bool.eq_iff_iff]
  rw [dictHasKey_iff_mem, keysOf_insert]
  by_cases hk : dictHasKey d k = true
  · rw [if_pos hk]
    simp only [Bool.or_eq_true, beq_iff_eq, dictHasKey_iff_mem]
    constructor
    · exact fun h => Or.inl h
    · rintro (h | rfl)
      · exact h
      · exact (dictHasKey_iff_mem d k').mp hk
  · rw [if_neg hk]
    simp [dictHasKey_iff_mem]

/-! ### Lemmas about the stat-calculation folds -/

theorem foldl_add_map (g : AttributeModifier → ℚ) (ms : List AttributeModifier)
    (x : ℚ) : ms.foldl (fun t m => t + g m) x = x + (ms.map g).sum := by
  induction ms generalizing x with
  | nil => simp
  | cons m ms ih =>
    rw [List.foldl_cons, ih, List.map_cons, List.sum_cons]
    ring

theorem round1_statTotal_eq_spec (character : Character) (stat_def : StatDefinition) :
    round1 (statTotal character stat_def) = spec_stat_value character stat_def := by
  unfold statTotal spec_stat_value
  congr 1
  rw [foldl_add_map
    (fun modifier =>
      dictGet character.base_attributes modifier.attr 0 * modifier.multiplier
        + modifier.base_bonus)]

theorem hasKey_foldlInsert (f : StatDefinition → ℚ) (defs : List StatDefinition)
    (acc : Dict) (k : String) :
    dictHasKey (defs.foldl (fun d sd => dictInsert d sd.name (f sd)) acc) k
      = (dictHasKey acc k || defs.any (fun sd => sd.name == k)) := by
  induction defs generalizing acc with
  | nil => simp
  | cons sd defs ih =>
    rw [List.foldl_cons, ih, dictHasKey_insert, List.any_cons]
    have hcomm : (k == sd.name) = (sd.name == k) := by
      cases hkn : (k == sd.name) with
      | true =>
        have he : k = sd.name := by simpa using hkn
        subst he
        simp
      | false =>
        have hne : ¬ k = sd.name := by simpa using hkn
        have hf : (sd.name == k) = false := by
          simpa using fun e => hne e.symm
        rw [hf]
    rw [hcomm, Bool.or_assoc]

theorem nodup_foldlInsert (f : StatDefinition → ℚ) (defs : List StatDefinition)
    (acc : Dict) (h : (keysOf acc).Nodup) :
    (keysOf (defs.foldl (fun d sd => dictInsert d sd.name (f sd)) acc)).Nodup := by
  induction defs generalizing acc with
  | nil => exact h
  | cons sd defs ih =>
    rw [List.foldl_cons]
    exact ih _ (keysOf_insert_nodup _ _ _ h)

theorem find_foldlInsert_frozen (f : StatDefinition → ℚ) (defs : List StatDefinition)
    (acc : Dict) (k : String) (h : ∀ sd ∈ defs, sd.name ≠ k) :
    dictFind (defs.foldl (fun d sd => dictInsert d sd.name (f sd)) acc) k
      = dictFind acc k := by
  induction defs generalizing acc with
  | nil => rfl
  | cons sd defs ih =>
    rw [List.foldl_cons, ih _ (fun s hs => h s (List.mem_cons_of_mem _ hs)),
      dictFind_insert_ne]
    exact fun e => h sd (List.mem_cons_self _ _) e.symm

/-! ### Claim theorems -/

/-- C1: for every character and every list of stat definitions,
`calculate_character_stats` maps each stat definition (in list order) to
`round(base_value + Σ(base_attributes.get(modifier.attribute, 0) * multiplier
+ base_bonus) + (level - 1) * per_level_bonus, 1 decimal)`, keyed by the
definition's name: the code's dict equals the spec-worded dict entry for
entry. -/
theorem C1_character_stat_formula (character : Character)
    (stat_definitions : List StatDefinition) :
    calculate_character_stats character stat_definitions
      = spec_stats_map character stat_definitions := by
  unfold calculate_character_stats spec_stats_map
  have hf : (fun (d : Dict) (sd : StatDefinition) =>
        dictInsert d sd.name (round1 (statTotal character sd)))
      = fun d sd => dictInsert d sd.name (spec_stat_value character sd) := by
    funext d sd
    rw [round1_statTotal_eq_spec]
  rw [hf]

/-- C3: the key list of the returned mapping has no duplicates, a key is
present exactly when some current stat definition bears that name, for a
definition not shadowed by a later one of the same name the stored value is
its spec value (so with duplicate names the later definition wins), and the
result never depends on the character's previous `calculated_stats`. -/
theorem C3_keyset_exactness (character : Character)
    (stat_definitions defs1 defs2 : List StatDefinition) (sd : StatDefinition)
    (k : String) (old : Dict)
    (h : ∀ sd' ∈ defs2, sd'.name ≠ sd.name) :
    (keysOf (calculate_character_stats character stat_definitions)).Nodup
    ∧ dictHasKey (calculate_character_stats character stat_definitions) k
        = stat_definitions.any (fun s => s.name == k)
    ∧ dictFind (calculate_character_stats character (defs1 ++ sd :: defs2)) sd.name
        = some (spec_stat_value character sd)
    ∧ calculate_character_stats { character with calculated_stats := old }
        stat_definitions
      = calculate_character_stats character stat_definitions := by
  refine ⟨?_, ?_, ?_, rfl⟩
  · exact nodup_foldlInsert _ _ [] (by simp [keysOf])
  · rw [calculate_character_stats, hasKey_foldlInsert]
    simp [dictHasKey]
  · rw [calculate_character_stats, List.foldl_append, List.foldl_cons,
      find_foldlInsert_frozen _ _ _ _ h, dictFind_insert_self,
      round1_statTotal_eq_spec]

/-- Witness for C3 at a concrete character and definition lists. -/
theorem C3_keyset_exactness_witness :
    (keysOf (calculate_character_stats wChar [wAlpha1, wAlpha2, wBeta])).Nodup
    ∧ dictHasKey (calculate_character_stats wChar [wAlpha1, wAlpha2, wBeta]) "stale"
        = ([wAlpha1, wAlpha2, wBeta] : List StatDefinition).any
            (fun s => s.name == "stale")
    ∧ dictFind (calculate_character_stats wChar ([wAlpha1] ++ wAlpha2 :: [wBeta]))
        wAlpha2.name
        = some (spec_stat_value wChar wAlpha2)
    ∧ calculate_character_stats { wChar with calculated_stats := [("older", 9)] }
        [wAlpha1, wAlpha2, wBeta]
      = calculate_character_stats wChar [wAlpha1, wAlpha2, wBeta] :=
  C3_keyset_exactness wChar [wAlpha1, wAlpha2, wBeta] [wAlpha1] [wBeta] wAlpha2
    "stale" [("older", 9)]
    (by
      intro sd' hmem
      rw [List.mem_singleton] at hmem
      rw [hmem]
      intro e
      exact absurd e (by with_unfolding_all decide))

theorem updateEnemyInList_some (enemies : List Enemy) (enemy_id : String) (N : ℤ)
    (updated : List Enemy) (h : updateEnemyInList enemies enemy_id N = some updated) :
    ∃ pre e post,
      enemies = pre ++ e :: post ∧
      e.id = enemy_id ∧
      updated = pre ++
        { e with
          level := max 1 N,
          calculated_stats := e.base_stats.map
            (fun p => (p.1, round1 (p.2 * (1 + (((max 1 N : ℤ) : ℚ) - 1) * (1/10))))) }
        :: post := by
  induction enemies generalizing updated with
  | nil => simp [updateEnemyInList] at h
  | cons e rest ih =>
    rw [updateEnemyInList] at h
    cases hid : (e.id == enemy_id) with
    | true =>
      rw [if_pos hid] at h
      refine ⟨[], e, rest, by simp, by simpa using hid, ?_⟩
      simpa using h.symm
    | false =>
      rw [if_neg (by simp [hid])] at h
      cases hrec : updateEnemyInList rest enemy_id N with
      | none => rw [hrec] at h; exact Option.noConfusion h
      | some rest' =>
        rw [hrec, Option.map_some'] at h
        replace h := Option.some.inj h
        obtain ⟨pre, e0, post, h1, h2, h3⟩ := ih rest' hrec
        exact ⟨e :: pre, e0, post, by rw [List.cons_append, ← h1], h2,
          by rw [← h, h3, List.cons_append]⟩

/-- C2: a successful enemy level update with requested level `N` stores
`max(1, N)` as the level and replaces the matched enemy's calculated stats by
`round(base_stat * (1 + (stored_level - 1) * 0.1), 1)` applied uniformly to
every entry of its `base_stats`; the rest of the enemy and the other enemies
are untouched. -/
theorem C2_enemy_level_scaling (project : Project) (enemy_id : String) (N : ℤ)
    (out : Project × LevelUpdateResponse)
    (h : update_enemy_level project enemy_id N = some out) :
    ∃ pre e post,
      project.enemies = pre ++ e :: post ∧
      e.id = enemy_id ∧
      out.1.enemies = pre ++
        { e with
          level := max 1 N,
          calculated_stats := e.base_stats.map
            (fun p => (p.1, round1 (p.2 * (1 + (((max 1 N : ℤ) : ℚ) - 1) * (1/10))))) }
        :: post := by
  rw [update_enemy_level] at h
  cases hrec : updateEnemyInList project.enemies enemy_id N with
  | none => rw [hrec] at h; exact Option.noConfusion h
  | some updated =>
    rw [hrec, Option.map_some'] at h
    replace h := Option.some.inj h
    obtain ⟨pre, e, post, h1, h2, h3⟩ := updateEnemyInList_some _ _ _ _ hrec
    exact ⟨pre, e, post, h1, h2, by rw [← h, h3]⟩

/-- Witness for C2: updating `wEnemy` to level 3 multiplies every base stat
by 1.2. -/
theorem C2_enemy_level_scaling_witness :
    ∃ pre e post,
      wProjE.enemies = pre ++ e :: post ∧
      e.id = "e1" ∧
      wProjE3.enemies = pre ++
        { e with
          level := max 1 3,
          calculated_stats := e.base_stats.map
            (fun p => (p.1, round1 (p.2 * (1 + (((max 1 3 : ℤ) : ℚ) - 1) * (1/10))))) }
        :: post :=
  C2_enemy_level_scaling wProjE "e1" 3
    (wProjE3, { message := "Enemy level updated", level := 3 })
    (by with_unfolding_all decide)

/-- C4: a fresh project is seeded with exactly the four documented stat
definitions (health 100/constitution×5/10 per level, mana 50/intelligence×3/5,
power 20/strength×2/2, initiative 10/dexterity×1.5/1); the sample character
{strength 15, dexterity 12, constitution 14, intelligence 10} gets health
170.0 at level 1, and health 210.0 and power 58.0 after a level update
to 5. -/
theorem C4_default_seed_end_to_end :
    (create_project "p" "T" "").stat_definitions
      = [ { name := "health", base_value := 100,
            modifiers := [{ attr := "constitution", multiplier := 5, base_bonus := 0 }],
            per_level_bonus := 10 },
          { name := "mana", base_value := 50,
            modifiers := [{ attr := "intelligence", multiplier := 3, base_bonus := 0 }],
            per_level_bonus := 5 },
          { name := "power", base_value := 20,
            modifiers := [{ attr := "strength", multiplier := 2, base_bonus := 0 }],
            per_level_bonus := 2 },
          { name := "initiative", base_value := 10,
            modifiers := [{ attr := "dexterity", multiplier := 3/2, base_bonus := 0 }],
            per_level_bonus := 1 } ]
    ∧ (create_project "p" "T" "").stat_definitions.length = 4
    ∧ dictFind
        ((create_character (create_project "p" "T" "") wHeroCreate "cid").2).calculated_stats
        "health" = some 170
    ∧ (update_character_level
          (create_character (create_project "p" "T" "") wHeroCreate "cid").1 "cid" 5).map
        (fun out => out.1.characters.map
          (fun c => (c.level, dictFind c.calculated_stats "health",
            dictFind c.calculated_stats "power")))
        = some [(5, some 210, some 58)] := by
  with_unfolding_all decide

/-- C9: enemy creation stores and returns calculated stats equal to a copy of
the request's base stats, with no level multiplier applied, whatever level the
request carries; the enemy is appended to the project. -/
theorem C9_enemy_creation_copies_base (project : Project) (ed : EnemyCreate)
    (newId : String) :
    ((create_enemy project ed newId).2).calculated_stats = ed.base_stats
    ∧ ((create_enemy project ed newId).2).base_stats = ed.base_stats
    ∧ ((create_enemy project ed newId).2).level = ed.level
    ∧ (create_enemy project ed newId).1.enemies
        = project.enemies ++ [(create_enemy project ed newId).2] :=
  ⟨rfl, rfl, rfl, rfl⟩

theorem updateCharacterInList_some (characters : List Character)
    (character_id : String) (N : ℤ) (stat_definitions : List StatDefinition)
    (updated : List Character)
    (h : updateCharacterInList characters character_id N stat_definitions
      = some updated) :
    ∃ pre c post,
      characters = pre ++ c :: post ∧
      c.id = character_id ∧
      updated = pre ++
        { c with
          level := max 1 N,
          calculated_stats := calculate_character_stats
            { c with level := max 1 N } stat_definitions }
        :: post := by
  induction characters generalizing updated with
  | nil => exact Option.noConfusion h
  | cons c rest ih =>
    rw [updateCharacterInList] at h
    cases hid : (c.id == character_id) with
    | true =>
      rw [if_pos hid] at h
      refine ⟨[], c, rest, by simp, by simpa using hid, ?_⟩
      simpa using h.symm
    | false =>
      rw [if_neg (by simp [hid])] at h
      cases hrec : updateCharacterInList rest character_id N stat_definitions with
      | none => rw [hrec] at h; exact Option.noConfusion h
      | some rest' =>
        rw [hrec, Option.map_some'] at h
        replace h := Option.some.inj h
        obtain ⟨pre, c0, post, h1, h2, h3⟩ := ih rest' hrec
        exact ⟨c :: pre, c0, post, by rw [List.cons_append, ← h1], h2,
          by rw [← h, h3, List.cons_append]⟩

/-- C5 counterexample: the creation endpoints do NOT clamp.  Creating a
character with requested level 0 stores and returns level 0, and creating an
enemy with requested level -3 stores and returns level -3. -/
theorem C5_creation_does_not_clamp_counterexample :
    ((create_character (create_project "p" "T" "") wBadCharCreate "cid").2).level = 0
    ∧ ((create_character (create_project "p" "T" "") wBadCharCreate "cid").2).level ≠ 1
    ∧ (create_character (create_project "p" "T" "") wBadCharCreate "cid").1.characters.map
        Character.level = [0]
    ∧ ((create_enemy (create_project "p" "T" "") wBadEnemyCreate "eid").2).level = -3
    ∧ ((create_enemy (create_project "p" "T" "") wBadEnemyCreate "eid").2).level ≠ 1
    ∧ (create_enemy (create_project "p" "T" "") wBadEnemyCreate "eid").1.enemies.map
        Enemy.level = [-3] := by
  with_unfolding_all decide

/-- C5 amended: only the two level-update endpoints clamp the level to
`max(1, N)` (hence ≥ 1); the creation endpoints store the requested level
unchanged, even when it is 0 or negative. -/
theorem C5_only_updates_clamp_level (p1 p2 p3 p4 : Project)
    (cd : CharacterCreate) (ed : EnemyCreate) (cid eid newIdC newIdE : String)
    (N M : ℤ) (outC outE : Project × LevelUpdateResponse)
    (hc : update_character_level p3 cid N = some outC)
    (he : update_enemy_level p4 eid M = some outE) :
    ((create_character p1 cd newIdC).2).level = cd.level
    ∧ ((create_enemy p2 ed newIdE).2).level = ed.level
    ∧ (∃ pre c post c', p3.characters = pre ++ c :: post ∧ c.id = cid ∧
        outC.1.characters = pre ++ c' :: post ∧ c'.level = max 1 N ∧ 1 ≤ c'.level)
    ∧ (∃ pre e post e', p4.enemies = pre ++ e :: post ∧ e.id = eid ∧
        outE.1.enemies = pre ++ e' :: post ∧ e'.level = max 1 M ∧ 1 ≤ e'.level) := by
  refine ⟨rfl, rfl, ?_, ?_⟩
  · rw [update_character_level] at hc
    cases hrec : updateCharacterInList p3.characters cid N p3.stat_definitions with
    | none => rw [hrec] at hc; exact Option.noConfusion hc
    | some updated =>
      rw [hrec, Option.map_some'] at hc
      replace hc := Option.some.inj hc
      obtain ⟨pre, c, post, h1, h2, h3⟩ := updateCharacterInList_some _ _ _ _ _ hrec
      exact ⟨pre, c, post, _, h1, h2, by rw [← hc, h3], rfl, le_max_left 1 N⟩
  · rw [update_enemy_level] at he
    cases hrec : updateEnemyInList p4.enemies eid M with
    | none => rw [hrec] at he; exact Option.noConfusion he
    | some updated =>
      rw [hrec, Option.map_some'] at he
      replace he := Option.some.inj he
      obtain ⟨pre, e, post, h1, h2, h3⟩ := updateEnemyInList_some _ _ _ _ hrec
      exact ⟨pre, e, post, _, h1, h2, by rw [← he, h3], rfl, le_max_left 1 M⟩

/-- Witness for the amended C5: creating with level 0 / -3 stores those raw
values, while updating `wCharL5` to 0 and `wEnemy` to -2 stores level 1. -/
theorem C5_only_updates_clamp_level_witness :
    ((create_character (create_project "p" "T" "") wBadCharCreate "cid").2).level
        = wBadCharCreate.level
    ∧ ((create_enemy (create_project "p" "T" "") wBadEnemyCreate "eid").2).level
        = wBadEnemyCreate.level
    ∧ (∃ pre c post c', wProjC.characters = pre ++ c :: post ∧ c.id = "c1" ∧
        wProjC1.characters = pre ++ c' :: post ∧ c'.level = max 1 0 ∧ 1 ≤ c'.level)
    ∧ (∃ pre e post e', wProjE.enemies = pre ++ e :: post ∧ e.id = "e1" ∧
        wProjE.enemies = pre ++ e' :: post ∧ e'.level = max 1 (-2) ∧ 1 ≤ e'.level) :=
  C5_only_updates_clamp_level (create_project "p" "T" "") (create_project "p" "T" "")
    wProjC wProjE wBadCharCreate wBadEnemyCreate "c1" "e1" "cid" "eid" 0 (-2)
    (wProjC1, { message := "Character level updated", level := 0 })
    (wProjE, { message := "Enemy level updated", level := -2 })
    (by with_unfolding_all decide) (by with_unfolding_all decide)

/-- C10: both level-update endpoints echo the raw requested level in the
response body, while the stored entity's level is the clamped `max(1, N)` —
so for a non-positive request the response reports the unclamped value. -/
theorem C10_response_echoes_requested_level (p1 p2 : Project) (cid eid : String)
    (N M : ℤ) (outC outE : Project × LevelUpdateResponse)
    (hc : update_character_level p1 cid N = some outC)
    (he : update_enemy_level p2 eid M = some outE) :
    outC.2.level = N
    ∧ outE.2.level = M
    ∧ (∃ pre c post c', p1.characters = pre ++ c :: post ∧ c.id = cid ∧
        outC.1.characters = pre ++ c' :: post ∧ c'.level = max 1 N)
    ∧ (∃ pre e post e', p2.enemies = pre ++ e :: post ∧ e.id = eid ∧
        outE.1.enemies = pre ++ e' :: post ∧ e'.level = max 1 M) := by
  rw [update_character_level] at hc
  rw [update_enemy_level] at he
  cases hrecC : updateCharacterInList p1.characters cid N p1.stat_definitions with
  | none => rw [hrecC] at hc; exact Option.noConfusion hc
  | some updatedC =>
    rw [hrecC, Option.map_some'] at hc
    replace hc := Option.some.inj hc
    cases hrecE : updateEnemyInList p2.enemies eid M with
    | none => rw [hrecE] at he; exact Option.noConfusion he
    | some updatedE =>
      rw [hrecE, Option.map_some'] at he
      replace he := Option.some.inj he
      obtain ⟨preC, c, postC, hc1, hc2, hc3⟩ :=
        updateCharacterInList_some _ _ _ _ _ hrecC
      obtain ⟨preE, e, postE, he1, he2, he3⟩ := updateEnemyInList_some _ _ _ _ hrecE
      refine ⟨by rw [← hc], by rw [← he], ?_, ?_⟩
      · exact ⟨preC, c, postC, _, hc1, hc2, by rw [← hc, hc3], rfl⟩
      · exact ⟨preE, e, postE, _, he1, he2, by rw [← he, he3], rfl⟩

/-- Witness for C10: updating to requested level 0 answers level 0 in the
response while the stored level is 1. -/
theorem C10_response_echoes_requested_level_witness :
    ((wProjC1, { message := "Character level updated", level := 0 })
        : Project × LevelUpdateResponse).2.level = 0
    ∧ ((wProjE, { message := "Enemy level updated", level := 0 })
        : Project × LevelUpdateResponse).2.level = 0
    ∧ (∃ pre c post c', wProjC.characters = pre ++ c :: post ∧ c.id = "c1" ∧
        (wProjC1, ({ message := "Character level updated", level := 0 }
          : LevelUpdateResponse)).1.characters = pre ++ c' :: post ∧
        c'.level = max 1 0)
    ∧ (∃ pre e post e', wProjE.enemies = pre ++ e :: post ∧ e.id = "e1" ∧
        (wProjE, ({ message := "Enemy level updated", level := 0 }
          : LevelUpdateResponse)).1.enemies = pre ++ e' :: post ∧
        e'.level = max 1 0) :=
  C10_response_echoes_requested_level wProjC wProjE "c1" "e1" 0 0
    (wProjC1, { message := "Character level updated", level := 0 })
    (wProjE, { message := "Enemy level updated", level := 0 })
    (by with_unfolding_all decide) (by with_unfolding_all decide)

/-- C6 counterexample: a level update that leaves the level at 1 still rounds
every base stat to one decimal, so an enemy whose base stat is 3.14 ends with
a calculated stat of 3.1 ≠ 3.14 even though its level is 1. -/
theorem C6_level1_update_rounds_counterexample :
    update_enemy_level wProjPi "e2" 1
      = some (wProjPiRounded, { message := "Enemy level updated", level := 1 })
    ∧ wEnemyPiRounded.level = 1
    ∧ wEnemyPiRounded.calculated_stats ≠ wEnemyPiRounded.base_stats := by
  refine ⟨?_, ?_, ?_⟩ <;> with_unfolding_all decide

/-- C6 amended: immediately after creation the calculated stats are exactly
the base stats; after a level update that leaves the level at 1 each
calculated stat is `round(base, 1)`, which agrees with the base stat exactly
when every base value already has at most one decimal place. -/
theorem C6_level1_stats (p1 project : Project) (ed : EnemyCreate)
    (newId enemy_id : String) (N : ℤ) (out : Project × LevelUpdateResponse)
    (hN : max 1 N = 1)
    (h : update_enemy_level project enemy_id N = some out) :
    ((create_enemy p1 ed newId).2).calculated_stats = ed.base_stats
    ∧ ∃ pre e post,
        project.enemies = pre ++ e :: post ∧
        e.id = enemy_id ∧
        out.1.enemies = pre ++
          { e with
            level := 1,
            calculated_stats := e.base_stats.map (fun s => (s.1, round1 s.2)) }
          :: post ∧
        ((∀ s ∈ e.base_stats, round1 s.2 = s.2) →
          e.base_stats.map (fun s => (s.1, round1 s.2)) = e.base_stats) := by
  refine ⟨rfl, ?_⟩
  rw [update_enemy_level] at h
  cases hrec : updateEnemyInList project.enemies enemy_id N with
  | none => rw [hrec] at h; exact Option.noConfusion h
  | some updated =>
    rw [hrec, Option.map_some'] at h
    replace h := Option.some.inj h
    obtain ⟨pre, e, post, h1, h2, h3⟩ := updateEnemyInList_some _ _ _ _ hrec
    rw [hN] at h3
    simp only [Int.cast_one, sub_self, zero_mul, add_zero, mul_one] at h3
    refine ⟨pre, e, post, h1, h2, by rw [← h, h3], ?_⟩
    intro hprec
    have hfun : ∀ s ∈ e.base_stats, (s.1, round1 s.2) = id s := by
      intro s hs
      rw [hprec s hs]
      rfl
    rw [List.map_congr_left hfun, List.map_id]

/-- Witness for the amended C6: updating `wEnemy` (whole-number base stats)
to requested level 0 leaves level 1 and calculated stats exactly equal to the
base stats. -/
theorem C6_level1_stats_witness :
    ((create_enemy (create_project "p" "T" "") wBadEnemyCreate "eid").2).calculated_stats
        = wBadEnemyCreate.base_stats
    ∧ ∃ pre e post,
        wProjE.enemies = pre ++ e :: post ∧
        e.id = "e1" ∧
        wProjE.enemies = pre ++
          { e with
            level := 1,
            calculated_stats := e.base_stats.map (fun s => (s.1, round1 s.2)) }
          :: post ∧
        ((∀ s ∈ e.base_stats, round1 s.2 = s.2) →
          e.base_stats.map (fun s => (s.1, round1 s.2)) = e.base_stats) :=
  C6_level1_stats (create_project "p" "T" "") wProjE wBadEnemyCreate "eid" "e1" 0
    (wProjE, { message := "Enemy level updated", level := 0 })
    (by with_unfolding_all decide) (by with_unfolding_all decide)

theorem dictGet_absent (d : Dict) (k : String) (q : ℚ)
    (h : dictHasKey d k = false) : dictGet d k q = q := by
  have h' : ¬ d.any (fun p => p.1 == k) = true := by
    rw [dictHasKey] at h
    rw [h]
    exact Bool.false_ne_true
  unfold dictGet
  rw [find_none_of_not_hasKey d k h']

theorem statTotal_eq (character : Character) (stat_def : StatDefinition) :
    statTotal character stat_def
      = stat_def.base_value
        + (stat_def.modifiers.map
            (fun m => dictGet character.base_attributes m.attr 0 * m.multiplier
              + m.base_bonus)).sum
        + (character.level - 1) * stat_def.per_level_bonus := by
  unfold statTotal
  rw [foldl_add_map
    (fun m => dictGet character.base_attributes m.attr 0 * m.multiplier
      + m.base_bonus)]

/-- C7 counterexample: a modifier whose attribute is missing from the
character still contributes its flat `base_bonus` — here 5, not zero — to the
stat total, so removing the modifier changes the result. -/
theorem C7_missing_attribute_counterexample :
    dictHasKey wChar.base_attributes "luck" = false
    ∧ calculate_character_stats wChar [wSdLuck] = [("crit", 5)]
    ∧ calculate_character_stats wChar [wSdNoMod] = [("crit", 0)]
    ∧ (5 : ℚ) ≠ 0 := by
  refine ⟨?_, ?_, ?_, ?_⟩ <;> with_unfolding_all decide

/-- C7 amended: a modifier whose attribute is absent from `base_attributes`
never errors (the stat total is always defined and an entry is always
produced) and its attribute term reads as zero, so the modifier contributes
exactly its `base_bonus` — zero only when the flat bonus is zero. -/
theorem C7_missing_attribute_reads_zero (character : Character)
    (stat_def : StatDefinition) (ms1 ms2 : List AttributeModifier)
    (m : AttributeModifier)
    (h : dictHasKey character.base_attributes m.attr = false) :
    dictGet character.base_attributes m.attr 0 = 0
    ∧ statTotal character { stat_def with modifiers := ms1 ++ m :: ms2 }
        = statTotal character { stat_def with modifiers := ms1 ++ ms2 }
          + m.base_bonus
    ∧ dictFind
        (calculate_character_stats character
          [{ stat_def with modifiers := ms1 ++ m :: ms2 }])
        stat_def.name
      = some (round1
          (statTotal character { stat_def with modifiers := ms1 ++ m :: ms2 })) := by
  have hget : dictGet character.base_attributes m.attr 0 = 0 := dictGet_absent _ _ _ h
  refine ⟨hget, ?_, ?_⟩
  · rw [statTotal_eq, statTotal_eq]
    simp only [List.map_append, List.sum_append, List.map_cons, List.sum_cons]
    rw [hget]
    ring
  · exact dictFind_insert_self [] stat_def.name _

/-- Witness for the amended C7: `wChar` lacks the attribute `luck`, and the
`luck` modifier with flat bonus 5 shifts the `crit` total by exactly 5. -/
theorem C7_missing_attribute_reads_zero_witness :
    dictGet wChar.base_attributes wLuckMod.attr 0 = 0
    ∧ statTotal wChar { wSdNoMod with modifiers := [] ++ wLuckMod :: [] }
        = statTotal wChar { wSdNoMod with modifiers := [] ++ [] }
          + wLuckMod.base_bonus
    ∧ dictFind
        (calculate_character_stats wChar
          [{ wSdNoMod with modifiers := [] ++ wLuckMod :: [] }])
        wSdNoMod.name
      = some (round1
          (statTotal wChar { wSdNoMod with modifiers := [] ++ wLuckMod :: [] })) :=
  C7_missing_attribute_reads_zero wChar wSdNoMod [] [] wLuckMod
    (by with_unfolding_all decide)

theorem replaceStatInList_some (stat_definitions : List StatDefinition)
    (stat_name : String) (stat_def : StatDefinition)
    (updated : List StatDefinition)
    (h : replaceStatInList stat_definitions stat_name stat_def = some updated) :
    ∃ pre d0 post,
      stat_definitions = pre ++ d0 :: post ∧
      d0.name = stat_name ∧
      updated = pre ++ stat_def :: post := by
  induction stat_definitions generalizing updated with
  | nil => exact Option.noConfusion h
  | cons d rest ih =>
    rw [replaceStatInList] at h
    cases hid : (d.name == stat_name) with
    | true =>
      rw [if_pos hid] at h
      exact ⟨[], d, rest, by simp, by simpa using hid, by simpa using h.symm⟩
    | false =>
      rw [if_neg (by simp [hid])] at h
      cases hrec : replaceStatInList rest stat_name stat_def with
      | none => rw [hrec] at h; exact Option.noConfusion h
      | some rest' =>
        rw [hrec, Option.map_some'] at h
        replace h := Option.some.inj h
        obtain ⟨pre, d0, post, h1, h2, h3⟩ := ih rest' hrec
        exact ⟨d :: pre, d0, post, by rw [List.cons_append, ← h1], h2,
          by rw [← h, h3, List.cons_append]⟩

/-- C8: appending a stat definition (`create_stat_definition`) and replacing
one (`update_stat_definition`) both recalculate every character's
`calculated_stats` against the updated definition list, and both leave every
character's id, name, level, base_attributes and character_class
unchanged. -/
theorem C8_stat_edits_recalculate_characters (project : Project)
    (sd : StatDefinition) (stat_name : String) (p' : Project) (i : ℕ)
    (h : update_stat_definition project stat_name sd = some p') :
    (create_stat_definition project sd).stat_definitions
        = project.stat_definitions ++ [sd]
    ∧ (create_stat_definition project sd).characters[i]?
        = (project.characters[i]?).map (fun c =>
            { c with calculated_stats :=
                calculate_character_stats c (project.stat_definitions ++ [sd]) })
    ∧ (create_stat_definition project sd).characters.map
          (fun c => (c.id, c.name, c.level, c.base_attributes, c.character_class))
        = project.characters.map
          (fun c => (c.id, c.name, c.level, c.base_attributes, c.character_class))
    ∧ (∃ pre d0 post, project.stat_definitions = pre ++ d0 :: post ∧
        d0.name = stat_name ∧ p'.stat_definitions = pre ++ sd :: post)
    ∧ p'.characters[i]?
        = (project.characters[i]?).map (fun c =>
            { c with calculated_stats :=
                calculate_character_stats c p'.stat_definitions })
    ∧ p'.characters.map
          (fun c => (c.id, c.name, c.level, c.base_attributes, c.character_class))
        = project.characters.map
          (fun c => (c.id, c.name, c.level, c.base_attributes, c.character_class)) := by
  rw [update_stat_definition] at h
  cases hrec : replaceStatInList project.stat_definitions stat_name sd with
  | none => rw [hrec] at h; exact Option.noConfusion h
  | some defs' =>
    rw [hrec, Option.map_some'] at h
    replace h := Option.some.inj h
    obtain ⟨pre, d0, post, h1, h2, h3⟩ := replaceStatInList_some _ _ _ _ hrec
    refine ⟨rfl, ?_, ?_, ⟨pre, d0, post, h1, h2, by rw [← h, h3]⟩, ?_, ?_⟩
    · simp only [create_stat_definition, List.getElem?_map]
    · simp only [create_stat_definition, List.map_map]
      rfl
    · rw [← h]
      simp only [List.getElem?_map]
    · rw [← h]
      simp only [List.map_map]
      rfl

/-- Witness for C8: replacing `alpha` in `wProjW` by `wAlpha2` recalculates
the character's stats to `alpha = 2` and changes nothing else about it. -/
theorem C8_stat_edits_recalculate_characters_witness :
    (create_stat_definition wProjW wAlpha2).stat_definitions
        = wProjW.stat_definitions ++ [wAlpha2]
    ∧ (create_stat_definition wProjW wAlpha2).characters[0]?
        = (wProjW.characters[0]?).map (fun c =>
            { c with calculated_stats :=
                calculate_character_stats c (wProjW.stat_definitions ++ [wAlpha2]) })
    ∧ (create_stat_definition wProjW wAlpha2).characters.map
          (fun c => (c.id, c.name, c.level, c.base_attributes, c.character_class))
        = wProjW.characters.map
          (fun c => (c.id, c.name, c.level, c.base_attributes, c.character_class))
    ∧ (∃ pre d0 post, wProjW.stat_definitions = pre ++ d0 :: post ∧
        d0.name = "alpha" ∧ wProjWUpdated.stat_definitions = pre ++ wAlpha2 :: post)
    ∧ wProjWUpdated.characters[0]?
        = (wProjW.characters[0]?).map (fun c =>
            { c with calculated_stats :=
                calculate_character_stats c wProjWUpdated.stat_definitions })
    ∧ wProjWUpdated.characters.map
          (fun c => (c.id, c.name, c.level, c.base_attributes, c.character_class))
        = wProjW.characters.map
          (fun c => (c.id, c.name, c.level, c.base_attributes, c.character_class)) :=
  C8_stat_edits_recalculate_characters wProjW wAlpha2 "alpha" wProjWUpdated 0
    (by with_unfolding_all decide)

end GameBalance
